import Mathlib

/-!
A shallow embedding of `pkg/bugzilla/bugzilla.go` (the `Verifier` of the
release-controller): `VerifyBugs` takes a list of Bugzilla bug IDs and a
release tag, resolves each bug to its linked GitHub pull requests, checks the
QA-approval label on each pull request and, when everything is approved,
moves the bug to VERIFIED after leaving an idempotent explanatory comment.

The external collaborators (the Bugzilla client, the GitHub client and the
semver parser) are modelled as an environment `RC.Env` of deterministic
functions.  Each embedded operation returns, next to the data the Go code
returns, the list of client calls it issues (`RC.Call`), so that statements
about side effects (comments posted, status updates issued) can be made about
the trace.
-/

namespace RC

deriving instance DecidableEq for Except

/-- The Go struct `pr`: org, repo and pull number of a review request. -/
structure pr where
  org : String
  repo : String
  prNum : Int
deriving DecidableEq, Repr

/-- An external bug link as returned by `GetExternalBugPRsOnBug`; `typeURL`
embeds the Go field `extBug.Type.URL`. -/
structure ExtBug where
  typeURL : String
  org : String
  repo : String
  num : Int
deriving DecidableEq, Repr

/-- A GitHub issue label; only its name is inspected. -/
structure Label where
  name : String
deriving DecidableEq, Repr

/-- A Bugzilla comment: its text and its creator account name. -/
structure Comment where
  text : String
  creator : String
deriving DecidableEq, Repr

/-- The QA-contact detail attached to a bug; only the display name is used. -/
structure QAContact where
  name : String
deriving DecidableEq, Repr

/-- The fields of a Bugzilla bug that `VerifyBugs` reads. -/
structure Bug where
  id : Int
  status : String
  targetRelease : List String
  qaContactDetail : Option QAContact
deriving DecidableEq, Repr

/-- An error answered by the link-fetch call, together with its
classification by `bugzilla.IsAccessDenied`. -/
structure ClientError where
  msg : String
  accessDenied : Bool
deriving DecidableEq, Repr

/-- Modelled from the spec: the release-version parser capability (the
functions `SemverParseTolerant` / `SemverToMajorMinor` live outside this
repository's core file) yields a semantic version with major, minor and patch
components; the parser itself is supplied by the environment. -/
structure SemVer where
  major : Nat
  minor : Nat
  patch : Nat
deriving DecidableEq, Repr

/-- Modelled from the spec: `toMajorMinor` renders a parsed tag as its
"major.minor" string. -/
def SemverToMajorMinor (v : SemVer) : String :=
  toString v.major ++ "." ++ toString v.minor

/-- One client call issued during a run.  The embedded operations return the
full trace of their calls in order. -/
inductive Call where
  | getExternalBugPRs : Int → Call
  | getBug : Int → Call
  | getIssueLabels : String → String → Int → Call
  | getComments : Int → Call
  | createComment : Int → String → Bool → Call
  | updateBug : Int → String → Call
deriving DecidableEq, Repr

/-- The environment of consumed capabilities: defect-tracker client, code-host
client and release-version parser.  Every call is a deterministic function of
its arguments; fallible calls answer with `Except`, and `updateBug` answers
`some errorText` on failure, `none` on success. -/
structure Env where
  semverParseTolerant : String → Except String SemVer
  getExternalBugPRsOnBug : Int → Except ClientError (List ExtBug)
  getBug : Int → Except String Bug
  getIssueLabels : String → String → Int → Except String (List Label)
  getComments : Int → Except String (List Comment)
  createComment : Int → String → Bool → Except String Int
  updateBug : Int → String → Option String

/-- `strings.Split s "."` for the one-character separator used at line 67 of
the source: every `'.'` starts a new (possibly empty) field. -/
def splitAux : List Char → List (List Char)
  | [] => [[]]
  | c :: rest =>
    if c == '.' then [] :: splitAux rest
    else
      match splitAux rest with
      | [] => [[c]]
      | g :: gs => (c :: g) :: gs

/-- `strings.Split s "."` on strings. -/
def splitDot (s : String) : List String :=
  (splitAux s.data).map (fun cs => String.mk cs)

/-- The "major.minor" string built from the first target-release entry
(line 72, `fmt.Sprintf("%s.%s", bugSplitVer[0], bugSplitVer[1])`). -/
def majorMinorOf (tr0 : String) : String :=
  (splitDot tr0).getD 0 "" ++ "." ++ (splitDot tr0).getD 1 ""

/-- The Go map update `bzPRs[bzID] = append(existingPRs, p)` (lines 176-181)
on an association list: append to the existing entry, create the entry at the
end on first insertion.  The list keeps first-insertion order, a
determinization of Go's unspecified map iteration order (the spec assumes no
order across bug IDs). -/
def insertAppend (m : List (Int × List pr)) (k : Int) (v : pr) :
    List (Int × List pr) :=
  match m with
  | [] => [(k, [v])]
  | (k0, vs) :: rest =>
    if k0 == k then (k0, vs ++ [v]) :: rest
    else (k0, vs) :: insertAppend rest k v

/-- Lines 174-184 of `getPRs`: keep the external links whose system URL is the
GitHub one and add each of them to the mapping under `bzID`. -/
def addExtBugs (m : List (Int × List pr)) (bzID : Int) :
    List ExtBug → List (Int × List pr)
  | [] => m
  | b :: rest =>
    if b.typeURL == "https://github.com/" then
      addExtBugs (insertAppend m bzID { org := b.org, repo := b.repo, prNum := b.num }) bzID rest
    else addExtBugs m bzID rest

/-- `getPRs` (lines 160-191) threading the mapping accumulator: resolve each
input bug ID to its linked GitHub review requests.  An access-denied link
fetch is only logged; any other link-fetch failure is recorded as an error;
either way the remaining IDs are still processed. -/
def getPRsAux (env : Env) (input : List Int) (m : List (Int × List pr)) :
    List (Int × List pr) × List String × List Call :=
  match input with
  | [] => (m, [], [])
  | bzID :: rest =>
    match env.getExternalBugPRsOnBug bzID with
    | .error e =>
      let r := getPRsAux env rest m
      if e.accessDenied then
        (r.1, r.2.1, Call.getExternalBugPRs bzID :: r.2.2)
      else
        (r.1,
         ("Failed to get external bugs for bugzilla bug " ++ toString bzID ++ ": " ++ e.msg) :: r.2.1,
         Call.getExternalBugPRs bzID :: r.2.2)
    | .ok extBugs =>
      let r := getPRsAux env rest (addExtBugs m bzID extBugs)
      (r.1, r.2.1, Call.getExternalBugPRs bzID :: r.2.2)

/-- The Go function `getPRs`: mapping from bug ID to linked review requests,
the error list, and the trace of link-fetch calls. -/
def getPRs (input : List Int) (env : Env) :
    List (Int × List pr) × List String × List Call :=
  getPRsAux env input []

/-- Line 54 of the source, `fmt.Sprintf("Bugfix included in accepted release %s", tagName)`. -/
def baseMessage (tagName : String) : String :=
  "Bugfix included in accepted release " ++ tagName

/-- The success announcement appended at line 125. -/
def successLine : String :=
  "\nAll linked GitHub PRs have been approved by a QA contact; updating bug status to VERIFIED"

/-- The fixed preamble appended at line 108. -/
def failureHeader : String :=
  "\nBug will not be automatically moved to VERIFIED for the following reasons:"

/-- The closing line appended at line 115. -/
def manualMoveLine : String :=
  "\n\nThis bug must now be manually moved to VERIFIED"

/-- The per-request failure line appended at line 110. -/
def prLine (p : pr) : String :=
  "\n- PR " ++ p.org ++ "/" ++ p.repo ++ "#" ++ toString p.prNum ++ " not approved by QA contact"

/-- The error recorded (both globally and as a per-bug reason) when fetching a
review request's labels fails (line 91). -/
def labelFetchErrMsg (p : pr) (e : String) : String :=
  "Unable to get labels for github pull " ++ p.org ++ "/" ++ p.repo ++ "#" ++ toString p.prNum ++ ": " ++ e

/-- The ON_QA branch (lines 89-106): fetch the labels of every linked review
request in order, accumulating the unapproved requests, the label-fetch error
messages (the code adds each of them both to the batch error list and to the
per-bug reasons) and the issued calls.  A request whose label fetch failed is
scanned over an empty label list, so it is also accumulated as unapproved. -/
def scanPRs (env : Env) : List pr → List pr × List String × List Call
  | [] => ([], [], [])
  | p :: rest =>
    let r := scanPRs env rest
    match env.getIssueLabels p.org p.repo p.prNum with
    | .error e =>
      (p :: r.1, labelFetchErrMsg p e :: r.2.1,
       Call.getIssueLabels p.org p.repo p.prNum :: r.2.2)
    | .ok labels =>
      if labels.any (fun l => l.name == "qe-approved") then
        (r.1, r.2.1, Call.getIssueLabels p.org p.repo p.prNum :: r.2.2)
      else
        (p :: r.1, r.2.1, Call.getIssueLabels p.org p.repo p.prNum :: r.2.2)

/-- Failure-message composition (lines 107-119): base line, fixed preamble,
one line per unapproved request in order, one line per per-bug reason in
order, the closing line, and the QA contact's display name when present. -/
def composeFailure (tagName : String) (qa : Option QAContact)
    (unlabeled : List pr) (bugErrs : List String) : String :=
  let m := baseMessage tagName ++ failureHeader
  let m := unlabeled.foldl (fun acc p => acc ++ prLine p) m
  let m := bugErrs.foldl (fun acc e => acc ++ "\n- " ++ e) m
  let m := m ++ manualMoveLine
  match qa with
  | some q => m ++ " by " ++ q.name
  | none => m

/-- The message `VerifyBugs` composes for a bug that reached status
evaluation: the success announcement when there is no unapproved request and
no per-bug reason (lines 121-126), the failure message otherwise. -/
def bugMessage (tagName : String) (bug : Bug)
    (unlabeled : List pr) (bugErrs : List String) : String :=
  if unlabeled.isEmpty && bugErrs.isEmpty then
    baseMessage tagName ++ successLine
  else
    composeFailure tagName bug.qaContactDetail unlabeled bugErrs

/-- The duplicate-comment check of line 134: identical text, authored by one
of the two robot identities. -/
def robotCreator (c : String) : Bool :=
  c == "openshift-bugzilla-robot" || c == "openshift-bugzilla-robot@redhat.com"

/-- The conditional status transition (lines 146-152): if and only if
`success`, issue the update to VERIFIED, recording a failure as an error. -/
def updateStep (env : Env) (bug : Bug) (success : Bool) :
    List String × List Call :=
  if success then
    match env.updateBug bug.id "VERIFIED" with
    | some e =>
      (["Failed to update status for bug " ++ toString bug.id ++ ": " ++ e],
       [Call.updateBug bug.id "VERIFIED"])
    | none => ([], [Call.updateBug bug.id "VERIFIED"])
  else ([], [])

/-- Lines 121-153 for one bug that reached status evaluation: compose the
message, post it idempotently and perform the conditional status transition.
A comment-fetch failure executes `continue`, so it also skips the status
transition; a comment-post failure does not. -/
def finishBug (env : Env) (tagName : String) (bugID : Int) (bug : Bug)
    (unlabeled : List pr) (bugErrs : List String) : List String × List Call :=
  let success := unlabeled.isEmpty && bugErrs.isEmpty
  let message := bugMessage tagName bug unlabeled bugErrs
  if message == "" then
    updateStep env bug success
  else
    match env.getComments bugID with
    | .error e =>
      (["Failed to get comments on bug " ++ toString bug.id ++ ": " ++ e],
       [Call.getComments bugID])
    | .ok comments =>
      let alreadyCommented := comments.any (fun c => c.text == message && robotCreator c.creator)
      let post : List String × List Call :=
        if alreadyCommented then ([], [])
        else
          match env.createComment bugID message true with
          | .error e =>
            (["Failed to comment on bug " ++ toString bug.id ++ ": " ++ e],
             [Call.createComment bugID message true])
          | .ok _ => ([], [Call.createComment bugID message true])
      let upd := updateStep env bug success
      (post.1 ++ upd.1, Call.getComments bugID :: (post.2 ++ upd.2))

/-- Per-bug processing after the bug record was fetched (lines 59-153):
target-release gates, status evaluation, then `finishBug`.  Returns the
errors this bug adds to the batch list and the calls it issues (the initial
`GetBug` call excluded).  Go's early `continue`s become the `([], [])`
branches; the status cases are rearranged from Go's `!= ON_QA` nesting into
the equivalent ON_QA / VERIFIED / other cascade. -/
def afterGetBug (env : Env) (tagName tagRelease : String) (bugID : Int)
    (bug : Bug) (extPRs : List pr) : List String × List Call :=
  match bug.targetRelease with
  | [] => ([], [])
  | tr0 :: _ =>
    if tr0 == "---" then ([], [])
    else if (splitDot tr0).length < 2 then
      (["Bug " ++ toString bug.id ++ ": length of target release `" ++ tr0 ++ "` after split by `.` is less than 2"],
       [])
    else if majorMinorOf tr0 == tagRelease then
      if bug.status == "ON_QA" then
        let s := scanPRs env extPRs
        let f := finishBug env tagName bugID bug s.1 s.2.1
        (s.2.1 ++ f.1, s.2.2 ++ f.2)
      else if bug.status == "VERIFIED" then ([], [])
      else finishBug env tagName bugID bug [] ["Bug is not in ON_QA status"]
    else ([], [])

/-- One iteration of the bug loop of `VerifyBugs` (lines 58-153). -/
def processBug (env : Env) (tagName tagRelease : String) (bugID : Int)
    (extPRs : List pr) : List String × List Call :=
  match env.getBug bugID with
  | .error e =>
    (["Unable to get bugzilla number " ++ toString bugID ++ ": " ++ e],
     [Call.getBug bugID])
  | .ok bug =>
    let r := afterGetBug env tagName tagRelease bugID bug extPRs
    (r.1, Call.getBug bugID :: r.2)

/-- The bug loop of `VerifyBugs` over the resolved mapping. -/
def processAll (env : Env) (tagName tagRelease : String) :
    List (Int × List pr) → List String × List Call
  | [] => ([], [])
  | (bugID, extPRs) :: rest =>
    let r := processBug env tagName tagRelease bugID extPRs
    let rs := processAll env tagName tagRelease rest
    (r.1 ++ rs.1, r.2 ++ rs.2)

/-- The Go function `VerifyBugs` (lines 46-157): parse the tag (the only
whole-batch abort), resolve bug → review requests, then process every mapping
entry.  Returns the aggregated error list and the trace of client calls. -/
def VerifyBugs (env : Env) (bugs : List Int) (tagName : String) :
    List String × List Call :=
  match env.semverParseTolerant tagName with
  | .error e =>
    (["failed to parse tag `" ++ tagName ++ "` semver: " ++ e], [])
  | .ok tagSemVer =>
    let tagRelease := SemverToMajorMinor tagSemVer
    let g := getPRs bugs env
    let p := processAll env tagName tagRelease g.1
    (g.2.1 ++ p.1, g.2.2 ++ p.2)

/-- A review request counts as approved when its fetched labels contain
"qe-approved"; a failed label fetch counts as unapproved (lines 96-103). -/
def prApproved (env : Env) (p : pr) : Bool :=
  match env.getIssueLabels p.org p.repo p.prNum with
  | .ok labels => labels.any (fun l => l.name == "qe-approved")
  | .error _ => false

/-- The success outcome of status evaluation (lines 88-126): the bug is in
ON_QA and the scan produced no unapproved request and no per-bug reason. -/
def bugOutcomeSuccess (env : Env) (bug : Bug) (extPRs : List pr) : Bool :=
  bug.status == "ON_QA" && (scanPRs env extPRs).1.isEmpty && (scanPRs env extPRs).2.1.isEmpty

/-- The message composed for a bug that reaches status evaluation. -/
def composedMessage (env : Env) (tagName : String) (bug : Bug)
    (extPRs : List pr) : String :=
  if bug.status == "ON_QA" then
    bugMessage tagName bug (scanPRs env extPRs).1 (scanPRs env extPRs).2.1
  else
    bugMessage tagName bug [] ["Bug is not in ON_QA status"]

/-- Recognizes a status-update call in a trace. -/
def isUpdateCall : Call → Bool
  | .updateBug _ _ => true
  | _ => false

/-- Recognizes a comment-creation call in a trace. -/
def isCreateCommentCall : Call → Bool
  | .createComment _ _ _ => true
  | _ => false

/-- The QA-contact suffix of the failure message (lines 117-119). -/
def qaSuffix : Option QAContact → String
  | some q => " by " ++ q.name
  | none => ""

/-- Concatenation of a list of strings (used to state message shapes). -/
def strConcat : List String → String
  | [] => ""
  | s :: rest => s ++ strConcat rest

/-- The review-request references one list of external links contributes: the
GitHub-hosted ones, in order (lines 174-184). -/
def linksOf (l : List ExtBug) : List pr :=
  (l.filter (fun b => b.typeURL == "https://github.com/")).map
    (fun b => { org := b.org, repo := b.repo, prNum := b.num })

/-- A review request whose labels contain the approval label. -/
def prA : pr := ⟨"o", "r", 5⟩

/-- A review request whose labels do not contain the approval label. -/
def prB : pr := ⟨"o", "r", 6⟩

/-- A review request whose label fetch fails. -/
def prC : pr := ⟨"o", "r", 7⟩

/-- An ON_QA bug linked to the approved request. -/
def bug1 : Bug := ⟨1, "ON_QA", ["4.14.0"], some ⟨"Contact"⟩⟩

/-- A bug already VERIFIED at entry. -/
def bug2 : Bug := ⟨2, "VERIFIED", ["4.14.0"], none⟩

/-- An ON_QA bug with one approved and one unapproved request. -/
def bug3 : Bug := ⟨3, "ON_QA", ["4.14.0"], some ⟨"Contact"⟩⟩

/-- An ON_QA bug whose one request has a failing label fetch. -/
def bug4 : Bug := ⟨4, "ON_QA", ["4.14.0"], none⟩

/-- A concrete environment used to exercise the theorems on closed inputs. -/
def demoEnv : Env where
  semverParseTolerant := fun s =>
    if s == "4.14.3" then .ok ⟨4, 14, 3⟩ else .error "invalid"
  getExternalBugPRsOnBug := fun id =>
    if id == 1 then .ok [⟨"https://github.com/", "o", "r", 5⟩]
    else if id == 2 then .ok [⟨"https://github.com/", "o", "r", 5⟩]
    else if id == 3 then
      .ok [⟨"https://github.com/", "o", "r", 5⟩, ⟨"https://github.com/", "o", "r", 6⟩]
    else if id == 4 then .ok [⟨"https://github.com/", "o", "r", 7⟩]
    else if id == 6 then .error ⟨"down", false⟩
    else if id == 7 then .error ⟨"denied", true⟩
    else if id == 8 then .ok [⟨"https://jira/", "a", "b", 1⟩]
    else .ok []
  getBug := fun id =>
    if id == 1 then .ok bug1
    else if id == 2 then .ok bug2
    else if id == 3 then .ok bug3
    else if id == 4 then .ok bug4
    else .error "missing"
  getIssueLabels := fun _ _ n =>
    if n == 5 then .ok [⟨"qe-approved"⟩]
    else if n == 6 then .ok [⟨"lgtm"⟩]
    else .error "boom"
  getComments := fun _ => .ok []
  createComment := fun _ _ _ => .ok 99
  updateBug := fun _ _ => none

/-- The same environment with a failing comment fetch. -/
def cexEnv : Env :=
  { demoEnv with getComments := fun _ => .error "down" }

/-- The unapproved requests accumulated by the scan are exactly the linked
requests that are not approved, in order. -/
theorem scanPRs_fst (env : Env) (l : List pr) :
    (scanPRs env l).1 = l.filter (fun p => !(prApproved env p)) := by
  induction l with
  | nil => rfl
  | cons p rest ih =>
    simp only [scanPRs, List.filter]
    cases h : env.getIssueLabels p.org p.repo p.prNum with
    | error e => simp [prApproved, h, ih]
    | ok labels =>
      cases hany : labels.any (fun l => l.name == "qe-approved") with
      | false => simp [prApproved, h, hany, ih]
      | true => simp [prApproved, h, hany, ih]

/-- The per-bug reasons accumulated by the scan are exactly the label-fetch
error messages, in order. -/
theorem scanPRs_errs (env : Env) (l : List pr) :
    (scanPRs env l).2.1 = l.filterMap (fun p =>
      match env.getIssueLabels p.org p.repo p.prNum with
      | .error e => some (labelFetchErrMsg p e)
      | .ok _ => none) := by
  induction l with
  | nil => rfl
  | cons p rest ih =>
    simp only [scanPRs, List.filterMap]
    cases h : env.getIssueLabels p.org p.repo p.prNum with
    | error e => simp [h, ih]
    | ok labels =>
      cases hany : labels.any (fun l => l.name == "qe-approved") with
      | false => simp [h, hany, ih]
      | true => simp [h, hany, ih]

/-- The scan issues exactly one label fetch per linked request, in order. -/
theorem scanPRs_calls (env : Env) (l : List pr) :
    (scanPRs env l).2.2 = l.map (fun p => Call.getIssueLabels p.org p.repo p.prNum) := by
  induction l with
  | nil => rfl
  | cons p rest ih =>
    simp only [scanPRs, List.map]
    cases h : env.getIssueLabels p.org p.repo p.prNum with
    | error e => simp [h, ih]
    | ok labels =>
      cases hany : labels.any (fun l => l.name == "qe-approved") with
      | false => simp [h, hany, ih]
      | true => simp [h, hany, ih]

theorem foldl_prLine : ∀ (l : List pr) (init : String),
    l.foldl (fun acc p => acc ++ prLine p) init = init ++ strConcat (l.map prLine)
  | [], init => by simp [strConcat, String.append_empty]
  | x :: rest, init => by
    simp only [List.foldl, List.map, strConcat]
    rw [foldl_prLine rest, String.append_assoc]

theorem foldl_errLine : ∀ (l : List String) (init : String),
    l.foldl (fun acc e => acc ++ "\n- " ++ e) init
      = init ++ strConcat (l.map (fun e => "\n- " ++ e))
  | [], init => by simp [strConcat, String.append_empty]
  | x :: rest, init => by
    simp only [List.foldl, List.map, strConcat]
    rw [foldl_errLine rest]
    simp [String.append_assoc]

/-- The failure message, written as the concatenation of its blocks. -/
theorem composeFailure_eq (tagName : String) (qa : Option QAContact)
    (unlabeled : List pr) (bugErrs : List String) :
    composeFailure tagName qa unlabeled bugErrs =
      baseMessage tagName ++ failureHeader ++ strConcat (unlabeled.map prLine)
        ++ strConcat (bugErrs.map (fun e => "\n- " ++ e))
        ++ manualMoveLine ++ qaSuffix qa := by
  simp only [composeFailure]
  rw [foldl_prLine, foldl_errLine]
  cases qa with
  | none => simp [qaSuffix, String.append_empty, String.append_assoc]
  | some q => simp [qaSuffix, String.append_assoc]

theorem strConcat_map_append (f : α → String) (l1 l2 : List α) :
    strConcat ((l1 ++ l2).map f) = strConcat (l1.map f) ++ strConcat (l2.map f) := by
  induction l1 with
  | nil => simp [strConcat, String.empty_append]
  | cons x rest ih =>
    simp only [List.cons_append, List.append_eq, List.map, strConcat]
    rw [ih]
    simp [String.append_assoc]

/-- Every element of the list contributes its block to the concatenation. -/
theorem strConcat_map_mem {f : α → String} {l : List α} {x : α} (h : x ∈ l) :
    ∃ a b, strConcat (l.map f) = a ++ f x ++ b := by
  obtain ⟨s, t, rfl⟩ := List.append_of_mem h
  refine ⟨strConcat (s.map f), strConcat (t.map f), ?_⟩
  rw [strConcat_map_append]
  simp [strConcat, String.append_assoc]

theorem str_append_data_ne (a b : String) (h : a.data ≠ []) : (a ++ b).data ≠ [] := by
  rw [String.data_append]
  intro hc
  exact h (List.append_eq_nil.mp hc).1

theorem baseMessage_data_ne (tagName : String) : (baseMessage tagName).data ≠ [] := by
  unfold baseMessage
  apply str_append_data_ne
  decide

/-- The composed message is never the empty string: both its branches start
with the base line. -/
theorem bugMessage_ne_empty (tagName : String) (bug : Bug)
    (unlabeled : List pr) (bugErrs : List String) :
    (bugMessage tagName bug unlabeled bugErrs == "") = false := by
  have key : (bugMessage tagName bug unlabeled bugErrs).data ≠ [] := by
    unfold bugMessage
    by_cases h : (unlabeled.isEmpty && bugErrs.isEmpty) = true
    · rw [if_pos h]
      exact str_append_data_ne _ _ (baseMessage_data_ne tagName)
    · rw [if_neg h, composeFailure_eq]
      apply str_append_data_ne
      apply str_append_data_ne
      apply str_append_data_ne
      apply str_append_data_ne
      apply str_append_data_ne
      exact baseMessage_data_ne tagName
  cases hb : (bugMessage tagName bug unlabeled bugErrs == "") with
  | false => rfl
  | true =>
    exact absurd (congrArg String.data (beq_iff_eq.mp hb)) key

/-- The calls issued by the conditional transition step. -/
theorem updateStep_calls (env : Env) (bug : Bug) (success : Bool) :
    (updateStep env bug success).2 =
      if success then [Call.updateBug bug.id "VERIFIED"] else [] := by
  cases success with
  | false => rfl
  | true =>
    simp only [updateStep, if_true]
    cases h : env.updateBug bug.id "VERIFIED" <;> simp [h]

/-- When the comment fetch fails, the bug's processing records one error and
stops: no comment is posted and no status update is attempted. -/
theorem finishBug_comments_error (env : Env) (tagName : String) (bugID : Int)
    (bug : Bug) (unlabeled : List pr) (bugErrs : List String) (e : String)
    (hc : env.getComments bugID = .error e) :
    finishBug env tagName bugID bug unlabeled bugErrs =
      (["Failed to get comments on bug " ++ toString bug.id ++ ": " ++ e],
       [Call.getComments bugID]) := by
  simp only [finishBug, bugMessage_ne_empty, Bool.false_eq_true, if_false, hc]

/-- The calls issued by `finishBug` when the comment fetch succeeds: the
fetch, then the comment creation unless suppressed, then the transition
exactly when the outcome is success. -/
theorem finishBug_calls_ok (env : Env) (tagName : String) (bugID : Int)
    (bug : Bug) (unlabeled : List pr) (bugErrs : List String)
    (comments : List Comment) (hc : env.getComments bugID = .ok comments) :
    (finishBug env tagName bugID bug unlabeled bugErrs).2 =
      Call.getComments bugID ::
        ((if comments.any (fun c =>
              c.text == bugMessage tagName bug unlabeled bugErrs && robotCreator c.creator)
          then []
          else [Call.createComment bugID (bugMessage tagName bug unlabeled bugErrs) true])
         ++ (if unlabeled.isEmpty && bugErrs.isEmpty
             then [Call.updateBug bug.id "VERIFIED"] else [])) := by
  simp only [finishBug, bugMessage_ne_empty, Bool.false_eq_true, if_false, hc]
  rw [← updateStep_calls env bug (unlabeled.isEmpty && bugErrs.isEmpty)]
  cases hA : comments.any (fun c =>
      c.text == bugMessage tagName bug unlabeled bugErrs && robotCreator c.creator) with
  | true => simp
  | false =>
    simp only [Bool.false_eq_true, if_false]
    cases hcc : env.createComment bugID (bugMessage tagName bug unlabeled bugErrs) true with
    | error e => simp [hcc]
    | ok n => simp [hcc]

/-- After the gates, an ON_QA bug is scanned and finished. -/
theorem afterGetBug_onqa (env : Env) (tagName tagRelease : String) (bugID : Int)
    (bug : Bug) (extPRs : List pr) (tr0 : String) (trRest : List String)
    (htr : bug.targetRelease = tr0 :: trRest) (h0 : tr0 ≠ "---")
    (hlen : ¬(splitDot tr0).length < 2) (hrel : majorMinorOf tr0 = tagRelease)
    (hst : bug.status = "ON_QA") :
    afterGetBug env tagName tagRelease bugID bug extPRs =
      ((scanPRs env extPRs).2.1
         ++ (finishBug env tagName bugID bug (scanPRs env extPRs).1 (scanPRs env extPRs).2.1).1,
       (scanPRs env extPRs).2.2
         ++ (finishBug env tagName bugID bug (scanPRs env extPRs).1 (scanPRs env extPRs).2.1).2) := by
  simp only [afterGetBug, htr]
  simp [h0, hlen, hrel, hst]

/-- After the gates, a VERIFIED bug is skipped silently. -/
theorem afterGetBug_verified (env : Env) (tagName tagRelease : String) (bugID : Int)
    (bug : Bug) (extPRs : List pr) (tr0 : String) (trRest : List String)
    (htr : bug.targetRelease = tr0 :: trRest) (h0 : tr0 ≠ "---")
    (hlen : ¬(splitDot tr0).length < 2) (hrel : majorMinorOf tr0 = tagRelease)
    (hst : bug.status = "VERIFIED") :
    afterGetBug env tagName tagRelease bugID bug extPRs = ([], []) := by
  simp only [afterGetBug, htr]
  simp [h0, hlen, hrel, hst]

/-- After the gates, a bug in any other status is finished with the single
policy-failure reason and no review-request scan. -/
theorem afterGetBug_other (env : Env) (tagName tagRelease : String) (bugID : Int)
    (bug : Bug) (extPRs : List pr) (tr0 : String) (trRest : List String)
    (htr : bug.targetRelease = tr0 :: trRest) (h0 : tr0 ≠ "---")
    (hlen : ¬(splitDot tr0).length < 2) (hrel : majorMinorOf tr0 = tagRelease)
    (hq : bug.status ≠ "ON_QA") (hv : bug.status ≠ "VERIFIED") :
    afterGetBug env tagName tagRelease bugID bug extPRs =
      finishBug env tagName bugID bug [] ["Bug is not in ON_QA status"] := by
  simp only [afterGetBug, htr]
  simp [h0, hlen, hrel, hq, hv]

/-- Unfolding of `processBug` when the bug record was fetched. -/
theorem processBug_ok (env : Env) (tagName tagRelease : String) (bugID : Int)
    (bug : Bug) (extPRs : List pr) (hb : env.getBug bugID = .ok bug) :
    processBug env tagName tagRelease bugID extPRs =
      ((afterGetBug env tagName tagRelease bugID bug extPRs).1,
       Call.getBug bugID :: (afterGetBug env tagName tagRelease bugID bug extPRs).2) := by
  simp only [processBug, hb]

/-- `getPRs` issues exactly one link fetch per input ID, in order. -/
theorem getPRsAux_calls (env : Env) : ∀ (input : List Int) (m : List (Int × List pr)),
    (getPRsAux env input m).2.2 = input.map Call.getExternalBugPRs
  | [], _ => rfl
  | bzID :: rest, m => by
    simp only [getPRsAux, List.map]
    cases h : env.getExternalBugPRsOnBug bzID with
    | error e => cases hd : e.accessDenied <;> simp [h, hd, getPRsAux_calls env rest]
    | ok extBugs => simp [h, getPRsAux_calls env rest]

/-- The errors of `getPRs`: one per non-access-denied link-fetch failure, in
input order; access-denied failures and successful fetches contribute none. -/
theorem getPRsAux_errs (env : Env) : ∀ (input : List Int) (m : List (Int × List pr)),
    (getPRsAux env input m).2.1 = input.filterMap (fun id =>
      match env.getExternalBugPRsOnBug id with
      | .error e =>
        if e.accessDenied then none
        else some ("Failed to get external bugs for bugzilla bug " ++ toString id ++ ": " ++ e.msg)
      | .ok _ => none)
  | [], _ => rfl
  | bzID :: rest, m => by
    simp only [getPRsAux, List.filterMap_cons]
    cases h : env.getExternalBugPRsOnBug bzID with
    | error e => cases hd : e.accessDenied <;> simp [h, hd, getPRsAux_errs env rest]
    | ok extBugs => simp [h, getPRsAux_errs env rest]

theorem lookup_insertAppend_ne (k k' : Int) (v : pr) (h : k ≠ k') :
    ∀ (m : List (Int × List pr)), List.lookup k (insertAppend m k' v) = List.lookup k m
  | [] => by
    have hf : (k == k') = false := beq_eq_false_iff_ne.mpr h
    simp [insertAppend, List.lookup, hf]
  | (k0, vs) :: rest => by
    simp only [insertAppend]
    cases h0 : (k0 == k') with
    | true =>
      have hk : k0 = k' := beq_iff_eq.mp h0
      subst hk
      have hf : (k == k0) = false := beq_eq_false_iff_ne.mpr h
      simp [List.lookup, hf]
    | false =>
      simp [List.lookup, lookup_insertAppend_ne k k' v h rest]

theorem lookup_insertAppend_eq (k : Int) (v : pr) :
    ∀ (m : List (Int × List pr)),
      List.lookup k (insertAppend m k v) = some ((List.lookup k m).getD [] ++ [v])
  | [] => by simp [insertAppend, List.lookup]
  | (k0, vs) :: rest => by
    simp only [insertAppend]
    cases h0 : (k0 == k) with
    | true =>
      have hk : k0 = k := beq_iff_eq.mp h0
      subst hk
      simp [List.lookup]
    | false =>
      have hk : ¬(k = k0) := fun hc => by simp [hc] at h0
      have hf : (k == k0) = false := beq_eq_false_iff_ne.mpr hk
      simp [List.lookup, hf, lookup_insertAppend_eq k v rest]

theorem addExtBugs_lookup_ne (k bzID : Int) (h : k ≠ bzID) :
    ∀ (l : List ExtBug) (m : List (Int × List pr)),
      List.lookup k (addExtBugs m bzID l) = List.lookup k m
  | [], _ => rfl
  | b :: rest, m => by
    simp only [addExtBugs]
    cases hb : (b.typeURL == "https://github.com/") with
    | true =>
      simp only [if_true]
      rw [addExtBugs_lookup_ne k bzID h rest, lookup_insertAppend_ne k bzID _ h m]
    | false =>
      simp only [Bool.false_eq_true, if_false]
      exact addExtBugs_lookup_ne k bzID h rest m

/-- Adding a list of external links with no GitHub-hosted one leaves the
mapping unchanged. -/
theorem addExtBugs_no_links (bzID : Int) :
    ∀ (l : List ExtBug) (m : List (Int × List pr)),
      l.filter (fun b => b.typeURL == "https://github.com/") = [] →
      addExtBugs m bzID l = m
  | [], _, _ => rfl
  | b :: rest, m, h => by
    simp only [List.filter_cons] at h
    cases hb : (b.typeURL == "https://github.com/") with
    | true => rw [hb] at h; simp at h
    | false =>
      rw [hb] at h
      simp only [addExtBugs, hb, Bool.false_eq_true, if_false]
      exact addExtBugs_no_links bzID rest m (by simpa using h)

/-- Adding one bug's external links appends exactly its GitHub links to that
bug's entry (creating the entry when absent and at least one link matches). -/
theorem addExtBugs_lookup_self (bzID : Int) :
    ∀ (l : List ExtBug) (m : List (Int × List pr)),
      List.lookup bzID (addExtBugs m bzID l) =
        match List.lookup bzID m with
        | some vs => some (vs ++ linksOf l)
        | none => if linksOf l = [] then none else some (linksOf l)
  | [], m => by
    cases h : List.lookup bzID m <;> simp [addExtBugs, linksOf, h]
  | b :: rest, m => by
    simp only [addExtBugs]
    cases hb : (b.typeURL == "https://github.com/") with
    | true =>
      simp only [if_true]
      rw [addExtBugs_lookup_self bzID rest, lookup_insertAppend_eq]
      have hl : linksOf (b :: rest) =
          ({ org := b.org, repo := b.repo, prNum := b.num } : pr) :: linksOf rest := by
        simp [linksOf, List.filter_cons, hb]
      cases h : List.lookup bzID m with
      | some vs => simp [h, hl]
      | none => simp [h, hl]
    | false =>
      simp only [Bool.false_eq_true, if_false]
      rw [addExtBugs_lookup_self bzID rest]
      have hl : linksOf (b :: rest) = linksOf rest := by
        simp [linksOf, List.filter_cons, hb]
      rw [hl]

/-- A bug ID whose link fetch yields no GitHub-hosted link never enters the
mapping. -/
theorem getPRsAux_lookup_none (env : Env) (id : Int) (extBugs : List ExtBug)
    (hf : env.getExternalBugPRsOnBug id = .ok extBugs)
    (hl : extBugs.filter (fun b => b.typeURL == "https://github.com/") = []) :
    ∀ (input : List Int) (m : List (Int × List pr)),
      List.lookup id m = none → List.lookup id (getPRsAux env input m).1 = none
  | [], _, hm => hm
  | bzID :: rest, m, hm => by
    by_cases hid : bzID = id
    · subst hid
      simp only [getPRsAux, hf]
      exact getPRsAux_lookup_none env bzID extBugs hf hl rest _
        (by rw [addExtBugs_no_links bzID extBugs m hl]; exact hm)
    · simp only [getPRsAux]
      cases hfb : env.getExternalBugPRsOnBug bzID with
      | error e =>
        cases hd : e.accessDenied <;>
          simp [hd, getPRsAux_lookup_none env id extBugs hf hl rest m hm]
      | ok other =>
        simp only []
        exact getPRsAux_lookup_none env id extBugs hf hl rest _
          (by rw [addExtBugs_lookup_ne id bzID (fun hc => hid hc.symm) other m]; exact hm)

/-- Each occurrence of a bug ID in the input appends that bug's GitHub links
once more to its entry: the entry is the `count`-fold concatenation. -/
theorem getPRsAux_lookup_count (env : Env) (id : Int) (extBugs : List ExtBug)
    (hf : env.getExternalBugPRsOnBug id = .ok extBugs)
    (hne : linksOf extBugs ≠ []) :
    ∀ (input : List Int) (m : List (Int × List pr)),
      List.lookup id (getPRsAux env input m).1 =
        match List.lookup id m with
        | some vs => some (vs ++ (List.replicate (input.count id) (linksOf extBugs)).flatten)
        | none =>
          if input.count id = 0 then none
          else some ((List.replicate (input.count id) (linksOf extBugs)).flatten)
  | [], m => by
    cases h : List.lookup id m <;> simp [getPRsAux, h]
  | bzID :: rest, m => by
    by_cases hid : bzID = id
    · subst hid
      simp only [getPRsAux, hf]
      rw [getPRsAux_lookup_count env bzID extBugs hf hne rest _]
      rw [addExtBugs_lookup_self bzID extBugs m]
      have hcount : (bzID :: rest).count bzID = rest.count bzID + 1 :=
        List.count_cons_self bzID rest
      cases h : List.lookup bzID m with
      | some vs =>
        simp [h, hcount, List.replicate_succ, List.append_assoc]
      | none =>
        simp [h, hcount, hne, List.replicate_succ]
    · simp only [getPRsAux]
      have hcount : (bzID :: rest).count id = rest.count id := by
        rw [List.count_cons]
        simp [beq_eq_false_iff_ne.mpr hid]
      cases hfb : env.getExternalBugPRsOnBug bzID with
      | error e =>
        cases hd : e.accessDenied <;>
          simp [hd, hcount, getPRsAux_lookup_count env id extBugs hf hne rest m]
      | ok other =>
        simp only []
        rw [getPRsAux_lookup_count env id extBugs hf hne rest _]
        rw [addExtBugs_lookup_ne id bzID (fun hc => hid hc.symm) other m, hcount]

/-- Any status update issued while processing one bug is the transition of
the fetched bug, whose status is ON_QA, to VERIFIED. -/
theorem processBug_update_mem (env : Env) (tagName tagRelease : String)
    (bugID : Int) (extPRs : List pr) (i : Int) (s : String)
    (h : Call.updateBug i s ∈ (processBug env tagName tagRelease bugID extPRs).2) :
    s = "VERIFIED" ∧
      ∃ bug, env.getBug bugID = Except.ok bug ∧ bug.id = i ∧ bug.status = "ON_QA" := by
  cases hb : env.getBug bugID with
  | error e =>
    simp only [processBug, hb] at h
    simp at h
  | ok bug =>
    rw [processBug_ok env tagName tagRelease bugID bug extPRs hb] at h
    simp only [List.mem_cons] at h
    rcases h with h | h
    · simp at h
    · cases htr : bug.targetRelease with
      | nil => simp [afterGetBug, htr] at h
      | cons tr0 trRest =>
        simp only [afterGetBug, htr] at h
        by_cases h0 : tr0 == "---"
        · simp [h0] at h
        · simp only [h0, Bool.false_eq_true, if_false] at h
          by_cases hlen : (splitDot tr0).length < 2
          · simp [hlen] at h
          · simp only [hlen, if_false] at h
            by_cases hrel : majorMinorOf tr0 == tagRelease
            · simp only [hrel, if_true] at h
              by_cases hq : bug.status == "ON_QA"
              · simp only [hq, if_true, List.mem_append] at h
                rcases h with h | h
                · rw [scanPRs_calls] at h
                  simp at h
                · cases hcm : env.getComments bugID with
                  | error e =>
                    rw [finishBug_comments_error env tagName bugID bug _ _ e hcm] at h
                    simp at h
                  | ok comments =>
                    rw [finishBug_calls_ok env tagName bugID bug _ _ comments hcm] at h
                    simp only [List.mem_cons, List.mem_append] at h
                    rcases h with h | h | h
                    · simp at h
                    · by_cases hA : comments.any (fun c =>
                          c.text == bugMessage tagName bug (scanPRs env extPRs).1 (scanPRs env extPRs).2.1
                            && robotCreator c.creator)
                      · simp [hA] at h
                      · simp only [hA, Bool.false_eq_true, if_false] at h
                        simp at h
                    · by_cases hS : ((scanPRs env extPRs).1.isEmpty && (scanPRs env extPRs).2.1.isEmpty) = true
                      · rw [if_pos hS] at h
                        simp only [List.mem_singleton, Call.updateBug.injEq] at h
                        obtain ⟨h1, h2⟩ := h
                        subst h1
                        subst h2
                        exact ⟨rfl, bug, rfl, rfl, beq_iff_eq.mp hq⟩
                      · rw [if_neg hS] at h
                        simp at h
              · simp only [hq, Bool.false_eq_true, if_false] at h
                by_cases hv : bug.status == "VERIFIED"
                · simp [hv] at h
                · simp only [hv, Bool.false_eq_true, if_false] at h
                  cases hcm : env.getComments bugID with
                  | error e =>
                    rw [finishBug_comments_error env tagName bugID bug _ _ e hcm] at h
                    simp at h
                  | ok comments =>
                    rw [finishBug_calls_ok env tagName bugID bug _ _ comments hcm] at h
                    simp only [List.mem_cons, List.mem_append] at h
                    rcases h with h | h | h
                    · simp at h
                    · by_cases hA : comments.any (fun c =>
                          c.text == bugMessage tagName bug [] ["Bug is not in ON_QA status"]
                            && robotCreator c.creator)
                      · simp [hA] at h
                      · simp only [hA, Bool.false_eq_true, if_false] at h
                        simp at h
                    · simp at h
            · simp [hrel] at h

/-- Any status update issued over the whole mapping comes from an ON_QA bug
and targets VERIFIED. -/
theorem processAll_update_mem (env : Env) (tagName tagRelease : String) :
    ∀ (entries : List (Int × List pr)) (i : Int) (s : String),
      Call.updateBug i s ∈ (processAll env tagName tagRelease entries).2 →
      s = "VERIFIED" ∧
        ∃ bugID bug, env.getBug bugID = Except.ok bug ∧ bug.id = i ∧ bug.status = "ON_QA"
  | [], i, s, h => by simp [processAll] at h
  | (bugID, extPRs) :: rest, i, s, h => by
    simp only [processAll, List.mem_append] at h
    rcases h with h | h
    · obtain ⟨hs, bug, hbug⟩ := processBug_update_mem env tagName tagRelease bugID extPRs i s h
      exact ⟨hs, bugID, bug, hbug⟩
    · exact processAll_update_mem env tagName tagRelease rest i s h

theorem filter_update_map_labels (l : List pr) :
    (l.map (fun p => Call.getIssueLabels p.org p.repo p.prNum)).filter isUpdateCall = [] := by
  induction l with
  | nil => rfl
  | cons p rest ih => simp [List.filter_cons, isUpdateCall, ih]

theorem filter_create_map_labels (l : List pr) :
    (l.map (fun p => Call.getIssueLabels p.org p.repo p.prNum)).filter isCreateCommentCall = [] := by
  induction l with
  | nil => rfl
  | cons p rest ih => simp [List.filter_cons, isCreateCommentCall, ih]

/-- Every input bug ID gets its link fetch issued. -/
theorem getPRs_mem_call (env : Env) (input : List Int) (id : Int) (hid : id ∈ input) :
    Call.getExternalBugPRs id ∈ (getPRs input env).2.2 := by
  rw [getPRs, getPRsAux_calls]
  exact List.mem_map_of_mem _ hid

/-- C6: a bug fetched in VERIFIED status (with matching target release)
triggers no comment fetch, no comment post, no status update and no error:
its whole processing is the single bug fetch. -/
theorem c6_verified_bug_skipped (env : Env) (tagName tagRelease : String)
    (bugID : Int) (bug : Bug) (extPRs : List pr) (tr0 : String) (trRest : List String)
    (hb : env.getBug bugID = Except.ok bug)
    (htr : bug.targetRelease = tr0 :: trRest) (h0 : tr0 ≠ "---")
    (hlen : ¬(splitDot tr0).length < 2) (hrel : majorMinorOf tr0 = tagRelease)
    (hst : bug.status = "VERIFIED") :
    processBug env tagName tagRelease bugID extPRs = ([], [Call.getBug bugID]) := by
  rw [processBug_ok env tagName tagRelease bugID bug extPRs hb,
    afterGetBug_verified env tagName tagRelease bugID bug extPRs tr0 trRest htr h0 hlen hrel hst]

/-- C6 witness: the VERIFIED bug 2 of the demo environment is skipped. -/
theorem c6_witness :
    processBug demoEnv "4.14.3" "4.14" 2 [prA] = ([], [Call.getBug 2]) :=
  c6_verified_bug_skipped demoEnv "4.14.3" "4.14" 2 bug2 [prA] "4.14.0" []
    (by decide) (by decide) (by decide) (by decide) (by decide) (by decide)

/-- C1: for an ON_QA bug that passes the release gates and whose
defect-tracker and code-host fetches all succeed, the outcome is success if
and only if every linked review request carries the "qe-approved" label; on
success the update of the bug to VERIFIED is issued exactly once and the
composed message ends with the success announcement line. -/
theorem c1_success_iff_all_approved (env : Env) (tagName tagRelease : String)
    (bugID : Int) (bug : Bug) (extPRs : List pr) (tr0 : String) (trRest : List String)
    (comments : List Comment)
    (hb : env.getBug bugID = Except.ok bug)
    (htr : bug.targetRelease = tr0 :: trRest) (h0 : tr0 ≠ "---")
    (hlen : ¬(splitDot tr0).length < 2) (hrel : majorMinorOf tr0 = tagRelease)
    (hst : bug.status = "ON_QA")
    (hfetch : ∀ p ∈ extPRs, (env.getIssueLabels p.org p.repo p.prNum).isOk = true)
    (hc : env.getComments bugID = Except.ok comments) :
    (bugOutcomeSuccess env bug extPRs = true ↔ ∀ p ∈ extPRs, prApproved env p = true)
    ∧ (bugOutcomeSuccess env bug extPRs = true →
        (processBug env tagName tagRelease bugID extPRs).2.filter isUpdateCall
          = [Call.updateBug bug.id "VERIFIED"]
        ∧ ∃ s, composedMessage env tagName bug extPRs = s ++ successLine) := by
  have herrs : (scanPRs env extPRs).2.1 = [] := by
    rw [scanPRs_errs]
    apply List.filterMap_eq_nil_iff.mpr
    intro p hp
    have hok := hfetch p hp
    cases hfb : env.getIssueLabels p.org p.repo p.prNum with
    | error e =>
      rw [hfb] at hok
      exact Bool.noConfusion hok
    | ok ls => rfl
  constructor
  · rw [bugOutcomeSuccess, hst, herrs, scanPRs_fst]
    simp [List.isEmpty_iff, List.filter_eq_nil_iff]
  · intro hsucc
    have hs1 : (scanPRs env extPRs).1 = [] := by
      rw [bugOutcomeSuccess, hst] at hsucc
      simp only [beq_self_eq_true, Bool.true_and, Bool.and_eq_true, List.isEmpty_iff] at hsucc
      exact hsucc.1
    constructor
    · rw [processBug_ok env tagName tagRelease bugID bug extPRs hb,
        afterGetBug_onqa env tagName tagRelease bugID bug extPRs tr0 trRest htr h0 hlen hrel hst,
        finishBug_calls_ok env tagName bugID bug (scanPRs env extPRs).1 (scanPRs env extPRs).2.1
          comments hc, hs1, herrs, scanPRs_calls]
      cases hA : comments.any (fun c =>
          c.text == bugMessage tagName bug [] [] && robotCreator c.creator) with
      | true =>
        simp [hA, List.filter_cons, List.filter_append, isUpdateCall, filter_update_map_labels]
      | false =>
        simp [hA, List.filter_cons, List.filter_append, isUpdateCall, filter_update_map_labels]
    · rw [composedMessage, hst]
      simp only [beq_self_eq_true, if_true]
      rw [bugMessage, hs1, herrs]
      simp only [List.isEmpty_nil, Bool.and_self, if_true]
      exact ⟨baseMessage tagName, rfl⟩

/-- C1 witness: bug 1 of the demo environment, whose single request is
approved, has a success outcome, one VERIFIED update and the announcing
message suffix. -/
theorem c1_witness :
    (bugOutcomeSuccess demoEnv bug1 [prA] = true ↔ ∀ p ∈ [prA], prApproved demoEnv p = true)
    ∧ (bugOutcomeSuccess demoEnv bug1 [prA] = true →
        (processBug demoEnv "4.14.3" "4.14" 1 [prA]).2.filter isUpdateCall
          = [Call.updateBug bug1.id "VERIFIED"]
        ∧ ∃ s, composedMessage demoEnv "4.14.3" bug1 [prA] = s ++ successLine) :=
  c1_success_iff_all_approved demoEnv "4.14.3" "4.14" 1 bug1 [prA] "4.14.0" [] []
    (by decide) (by decide) (by decide) (by decide) (by decide) (by decide)
    (by decide) (by decide)

/-- C2 counterexample: in `cexEnv` bug 1 is ON_QA, release-matching and its
only linked request is approved, so its outcome is success; yet the run
issues no status update, because the comment fetch fails and the code then
skips the transition.  The update is therefore not issued "if and only if the
outcome is success". -/
theorem c2_counterexample :
    bugOutcomeSuccess cexEnv bug1 [prA] = true
    ∧ (VerifyBugs cexEnv [1] "4.14.3").2.filter isUpdateCall = []
    ∧ (VerifyBugs cexEnv [1] "4.14.3").2
        = [Call.getExternalBugPRs 1, Call.getBug 1, Call.getIssueLabels "o" "r" 5,
           Call.getComments 1] :=
  ⟨by decide, by decide, by decide⟩

/-- C2 amended: for a bug passing the target-release gates, the ON_QA →
VERIFIED update is issued if and only if the bug's outcome is success and the
comment fetch succeeded.  In particular non-success outcomes never attempt a
transition, and a comment-post failure does not block the transition (the
environment's `createComment` may fail freely), but a comment-fetch failure
does block it. -/
theorem c2_update_iff_success_and_comments (env : Env) (tagName tagRelease : String)
    (bugID : Int) (bug : Bug) (extPRs : List pr) (tr0 : String) (trRest : List String)
    (hb : env.getBug bugID = Except.ok bug)
    (htr : bug.targetRelease = tr0 :: trRest) (h0 : tr0 ≠ "---")
    (hlen : ¬(splitDot tr0).length < 2) (hrel : majorMinorOf tr0 = tagRelease) :
    (processBug env tagName tagRelease bugID extPRs).2.filter isUpdateCall ≠ []
      ↔ (bugOutcomeSuccess env bug extPRs = true
          ∧ ∃ cs, env.getComments bugID = Except.ok cs) := by
  rw [processBug_ok env tagName tagRelease bugID bug extPRs hb]
  by_cases hq : bug.status = "ON_QA"
  · rw [afterGetBug_onqa env tagName tagRelease bugID bug extPRs tr0 trRest htr h0 hlen hrel hq]
    cases hcm : env.getComments bugID with
    | error e =>
      rw [finishBug_comments_error env tagName bugID bug _ _ e hcm]
      constructor
      · intro hne
        exfalso
        apply hne
        simp [List.filter_cons, List.filter_append, isUpdateCall, scanPRs_calls,
          filter_update_map_labels]
      · rintro ⟨hs, cs, hcs⟩
        exact Except.noConfusion hcs
    | ok comments =>
      rw [finishBug_calls_ok env tagName bugID bug _ _ comments hcm]
      have hfilter : (Call.getBug bugID ::
          ((scanPRs env extPRs).2.2 ++ Call.getComments bugID ::
            ((if comments.any (fun c =>
                  c.text == bugMessage tagName bug (scanPRs env extPRs).1 (scanPRs env extPRs).2.1
                    && robotCreator c.creator)
              then []
              else [Call.createComment bugID
                (bugMessage tagName bug (scanPRs env extPRs).1 (scanPRs env extPRs).2.1) true])
             ++ (if (scanPRs env extPRs).1.isEmpty && (scanPRs env extPRs).2.1.isEmpty
                 then [Call.updateBug bug.id "VERIFIED"] else [])))).filter isUpdateCall
          = (if (scanPRs env extPRs).1.isEmpty && (scanPRs env extPRs).2.1.isEmpty
             then [Call.updateBug bug.id "VERIFIED"] else []) := by
        cases hA : comments.any (fun c =>
            c.text == bugMessage tagName bug (scanPRs env extPRs).1 (scanPRs env extPRs).2.1
              && robotCreator c.creator) with
        | true =>
          cases hS : (scanPRs env extPRs).1.isEmpty && (scanPRs env extPRs).2.1.isEmpty with
          | true =>
            simp [List.filter_cons, List.filter_append, isUpdateCall, scanPRs_calls,
              filter_update_map_labels]
          | false =>
            simp [List.filter_cons, List.filter_append, isUpdateCall, scanPRs_calls,
              filter_update_map_labels]
        | false =>
          cases hS : (scanPRs env extPRs).1.isEmpty && (scanPRs env extPRs).2.1.isEmpty with
          | true =>
            simp [List.filter_cons, List.filter_append, isUpdateCall, scanPRs_calls,
              filter_update_map_labels]
          | false =>
            simp [List.filter_cons, List.filter_append, isUpdateCall, scanPRs_calls,
              filter_update_map_labels]
      rw [hfilter]
      cases hS : (scanPRs env extPRs).1.isEmpty && (scanPRs env extPRs).2.1.isEmpty with
      | true =>
        constructor
        · intro _
          exact ⟨by simp [bugOutcomeSuccess, hq, hS], comments, rfl⟩
        · intro _
          simp
      | false =>
        constructor
        · intro hne
          exact absurd (by simp) hne
        · rintro ⟨hs, _⟩
          simp [bugOutcomeSuccess, hq, hS] at hs
  · have hqf : (bug.status == "ON_QA") = false := beq_eq_false_iff_ne.mpr hq
    have houtcome : bugOutcomeSuccess env bug extPRs = false := by
      simp [bugOutcomeSuccess, hqf]
    by_cases hv : bug.status = "VERIFIED"
    · rw [afterGetBug_verified env tagName tagRelease bugID bug extPRs tr0 trRest htr h0 hlen hrel hv]
      simp [List.filter_cons, isUpdateCall, houtcome]
    · rw [afterGetBug_other env tagName tagRelease bugID bug extPRs tr0 trRest htr h0 hlen hrel hq hv]
      cases hcm : env.getComments bugID with
      | error e =>
        rw [finishBug_comments_error env tagName bugID bug _ _ e hcm]
        simp [List.filter_cons, isUpdateCall, houtcome]
      | ok comments =>
        rw [finishBug_calls_ok env tagName bugID bug _ _ comments hcm]
        cases hA : comments.any (fun c =>
            c.text == bugMessage tagName bug [] ["Bug is not in ON_QA status"]
              && robotCreator c.creator) with
        | true => simp [List.filter_cons, List.filter_append, isUpdateCall, houtcome, hA]
        | false => simp [List.filter_cons, List.filter_append, isUpdateCall, houtcome, hA]

/-- C2 witness: for bug 1 of the demo environment the amended equivalence
holds with both sides true. -/
theorem c2_witness :
    (processBug demoEnv "4.14.3" "4.14" 1 [prA]).2.filter isUpdateCall ≠ []
      ↔ (bugOutcomeSuccess demoEnv bug1 [prA] = true
          ∧ ∃ cs, demoEnv.getComments 1 = Except.ok cs) :=
  c2_update_iff_success_and_comments demoEnv "4.14.3" "4.14" 1 bug1 [prA] "4.14.0" []
    (by decide) (by decide) (by decide) (by decide) (by decide)

/-- C3: the only status update this system ever issues is to VERIFIED, and
only for a bug whose fetched status is ON_QA; no run and no operation ever
issues any other transition. -/
theorem c3_only_onqa_to_verified (env : Env) (bugs : List Int) (tagName : String)
    (i : Int) (s : String)
    (h : Call.updateBug i s ∈ (VerifyBugs env bugs tagName).2) :
    s = "VERIFIED" ∧
      ∃ bugID bug, env.getBug bugID = Except.ok bug ∧ bug.id = i ∧ bug.status = "ON_QA" := by
  cases hp : env.semverParseTolerant tagName with
  | error e =>
    simp only [VerifyBugs, hp] at h
    simp at h
  | ok v =>
    simp only [VerifyBugs, hp, List.mem_append] at h
    rcases h with h | h
    · rw [getPRs, getPRsAux_calls] at h
      simp at h
    · exact processAll_update_mem env tagName (SemverToMajorMinor v) _ i s h

/-- C3 witness: the single update issued for bug 1 of the demo run. -/
theorem c3_witness :
    "VERIFIED" = "VERIFIED" ∧
      ∃ bugID bug, demoEnv.getBug bugID = Except.ok bug ∧ bug.id = 1 ∧ bug.status = "ON_QA" :=
  c3_only_onqa_to_verified demoEnv [1] "4.14.3" 1 "VERIFIED" (by decide)

/-- C5: a tag that fails semver parsing makes `VerifyBugs` return exactly one
error and issue no client call at all; when the tag parses, every input bug
ID still gets its link fetch issued, so no other condition aborts the
batch. -/
theorem c5_parse_failure_aborts (env : Env) (bugs : List Int) (tagName : String) :
    (∀ e, env.semverParseTolerant tagName = Except.error e →
      VerifyBugs env bugs tagName =
        (["failed to parse tag `" ++ tagName ++ "` semver: " ++ e], []))
    ∧ (∀ v, env.semverParseTolerant tagName = Except.ok v →
        ∀ id ∈ bugs, Call.getExternalBugPRs id ∈ (VerifyBugs env bugs tagName).2) := by
  constructor
  · intro e he
    simp only [VerifyBugs, he]
  · intro v hv id hid
    simp only [VerifyBugs, hv, List.mem_append]
    exact Or.inl (getPRs_mem_call env bugs id hid)

/-- C5 witness: a non-semver tag yields the single parse error and an empty
trace. -/
theorem c5_witness :
    VerifyBugs demoEnv [1] "not-a-semver" =
      (["failed to parse tag `not-a-semver` semver: invalid"], []) :=
  (c5_parse_failure_aborts demoEnv [1] "not-a-semver").1 "invalid" (by decide)

theorem scanPRs_errs_nil (env : Env) (extPRs : List pr)
    (hfetch : ∀ p ∈ extPRs, (env.getIssueLabels p.org p.repo p.prNum).isOk = true) :
    (scanPRs env extPRs).2.1 = [] := by
  rw [scanPRs_errs]
  apply List.filterMap_eq_nil_iff.mpr
  intro p hp
  have hok := hfetch p hp
  cases hfb : env.getIssueLabels p.org p.repo p.prNum with
  | error e =>
    rw [hfb] at hok
    exact Bool.noConfusion hok
  | ok ls => rfl

theorem filter_create_ite_update (b : Bool) (i : Int) :
    (if b then [Call.updateBug i "VERIFIED"] else []).filter isCreateCommentCall = [] := by
  cases b <;> rfl

/-- C7: for an ON_QA bug whose label fetches all succeed and which has at
least one unapproved request, the composed message is the base line, the
fixed preamble, one "not approved" line per unapproved request in the order
encountered (approved requests contribute nothing; with all fetches
succeeding there are no policy-failure error lines), the manual-transition
closing line, and the QA-contact suffix exactly when the contact detail is
present. -/
theorem c7_failure_message_shape (env : Env) (tagName : String) (bug : Bug)
    (extPRs : List pr)
    (hst : bug.status = "ON_QA")
    (hfetch : ∀ p ∈ extPRs, (env.getIssueLabels p.org p.repo p.prNum).isOk = true)
    (hne : extPRs.filter (fun p => !(prApproved env p)) ≠ []) :
    composedMessage env tagName bug extPRs =
      baseMessage tagName ++ failureHeader
        ++ strConcat ((extPRs.filter (fun p => !(prApproved env p))).map prLine)
        ++ manualMoveLine ++ qaSuffix bug.qaContactDetail := by
  have herrs := scanPRs_errs_nil env extPRs hfetch
  have hF : (extPRs.filter (fun p => !(prApproved env p))).isEmpty = false :=
    List.isEmpty_eq_false.mpr hne
  rw [composedMessage, hst]
  simp only [beq_self_eq_true, if_true]
  rw [bugMessage, scanPRs_fst, herrs, hF]
  simp only [Bool.false_and, Bool.false_eq_true, if_false]
  rw [composeFailure_eq]
  simp [strConcat, String.append_empty]

/-- C7 witness: bug 3 links one approved and one unapproved request; only the
unapproved one is listed. -/
theorem c7_witness :
    composedMessage demoEnv "4.14.3" bug3 [prA, prB] =
      baseMessage "4.14.3" ++ failureHeader
        ++ strConcat (([prA, prB].filter (fun p => !(prApproved demoEnv p))).map prLine)
        ++ manualMoveLine ++ qaSuffix bug3.qaContactDetail :=
  c7_failure_message_shape demoEnv "4.14.3" bug3 [prA, prB]
    (by decide) (by decide) (by decide)

/-- C4: comment posting is idempotent: when the fetched comments already
contain the composed message authored by one of the two robot identities, no
comment-creation call is issued; otherwise exactly one comment-creation call
is issued, carrying the composed message as a private comment. -/
theorem c4_comment_idempotent (env : Env) (tagName tagRelease : String)
    (bugID : Int) (bug : Bug) (extPRs : List pr) (tr0 : String) (trRest : List String)
    (comments : List Comment)
    (hb : env.getBug bugID = Except.ok bug)
    (htr : bug.targetRelease = tr0 :: trRest) (h0 : tr0 ≠ "---")
    (hlen : ¬(splitDot tr0).length < 2) (hrel : majorMinorOf tr0 = tagRelease)
    (hsv : bug.status ≠ "VERIFIED")
    (hc : env.getComments bugID = Except.ok comments) :
    (comments.any (fun c =>
        c.text == composedMessage env tagName bug extPRs && robotCreator c.creator) = true →
      (processBug env tagName tagRelease bugID extPRs).2.filter isCreateCommentCall = [])
    ∧ (comments.any (fun c =>
        c.text == composedMessage env tagName bug extPRs && robotCreator c.creator) = false →
      (processBug env tagName tagRelease bugID extPRs).2.filter isCreateCommentCall
        = [Call.createComment bugID (composedMessage env tagName bug extPRs) true]) := by
  rw [processBug_ok env tagName tagRelease bugID bug extPRs hb]
  by_cases hq : bug.status = "ON_QA"
  · have hm : composedMessage env tagName bug extPRs
        = bugMessage tagName bug (scanPRs env extPRs).1 (scanPRs env extPRs).2.1 := by
      rw [composedMessage, hq]
      simp
    rw [afterGetBug_onqa env tagName tagRelease bugID bug extPRs tr0 trRest htr h0 hlen hrel hq,
      finishBug_calls_ok env tagName bugID bug (scanPRs env extPRs).1 (scanPRs env extPRs).2.1
        comments hc, hm]
    constructor
    · intro hA
      simp [hA, List.filter_cons, List.filter_append, isCreateCommentCall, scanPRs_calls,
        filter_create_map_labels, filter_create_ite_update]
      intro a _ _ ha
      subst ha
      rfl
    · intro hA
      simp [hA, List.filter_cons, List.filter_append, isCreateCommentCall, scanPRs_calls,
        filter_create_map_labels, filter_create_ite_update]
      intro a _ _ ha
      subst ha
      rfl
  · have hm : composedMessage env tagName bug extPRs
        = bugMessage tagName bug [] ["Bug is not in ON_QA status"] := by
      rw [composedMessage]
      simp [beq_eq_false_iff_ne.mpr hq]
    rw [afterGetBug_other env tagName tagRelease bugID bug extPRs tr0 trRest htr h0 hlen hrel hq hsv,
      finishBug_calls_ok env tagName bugID bug [] ["Bug is not in ON_QA status"] comments hc, hm]
    constructor
    · intro hA
      simp [hA, List.filter_cons, List.filter_append, isCreateCommentCall,
        filter_create_ite_update]
    · intro hA
      simp [hA, List.filter_cons, List.filter_append, isCreateCommentCall,
        filter_create_ite_update]

/-- C4 witness: bug 1 has no prior comments, so exactly one private comment
with the composed message is created. -/
theorem c4_witness :
    (processBug demoEnv "4.14.3" "4.14" 1 [prA]).2.filter isCreateCommentCall
      = [Call.createComment 1 (composedMessage demoEnv "4.14.3" bug1 [prA]) true] :=
  (c4_comment_idempotent demoEnv "4.14.3" "4.14" 1 bug1 [prA] "4.14.0" [] []
    (by decide) (by decide) (by decide) (by decide) (by decide) (by decide)
    (by decide)).2 (by decide)

/-- C9: a review request whose label fetch fails is treated as unapproved as
well: it enters the unapproved list and its fetch error the per-bug reasons,
so the failure message contains both its "not approved by QA contact" line
and its error line, and the bug's outcome cannot be success. -/
theorem c9_label_fetch_failure_double (env : Env) (tagName : String) (bug : Bug)
    (extPRs : List pr) (p : pr) (e : String)
    (hst : bug.status = "ON_QA")
    (hp : p ∈ extPRs)
    (he : env.getIssueLabels p.org p.repo p.prNum = Except.error e) :
    p ∈ (scanPRs env extPRs).1
    ∧ labelFetchErrMsg p e ∈ (scanPRs env extPRs).2.1
    ∧ bugOutcomeSuccess env bug extPRs = false
    ∧ (∃ a b, composedMessage env tagName bug extPRs = a ++ prLine p ++ b)
    ∧ (∃ a b, composedMessage env tagName bug extPRs
        = a ++ ("\n- " ++ labelFetchErrMsg p e) ++ b) := by
  have h1 : p ∈ (scanPRs env extPRs).1 := by
    rw [scanPRs_fst]
    exact List.mem_filter.mpr ⟨hp, by simp [prApproved, he]⟩
  have h2 : labelFetchErrMsg p e ∈ (scanPRs env extPRs).2.1 := by
    rw [scanPRs_errs]
    exact List.mem_filterMap.mpr ⟨p, hp, by rw [he]⟩
  have hEF : (scanPRs env extPRs).2.1.isEmpty = false :=
    List.isEmpty_eq_false.mpr (List.ne_nil_of_mem h2)
  have h3 : bugOutcomeSuccess env bug extPRs = false := by
    rw [bugOutcomeSuccess, hEF]
    simp
  have hmsg : composedMessage env tagName bug extPRs =
      baseMessage tagName ++ failureHeader
        ++ strConcat ((scanPRs env extPRs).1.map prLine)
        ++ strConcat ((scanPRs env extPRs).2.1.map (fun s => "\n- " ++ s))
        ++ manualMoveLine ++ qaSuffix bug.qaContactDetail := by
    rw [composedMessage, hst]
    simp only [beq_self_eq_true, if_true]
    rw [bugMessage, hEF]
    simp only [Bool.and_false, Bool.false_eq_true, if_false]
    exact composeFailure_eq tagName bug.qaContactDetail _ _
  refine ⟨h1, h2, h3, ?_, ?_⟩
  · obtain ⟨a, b, hab⟩ := strConcat_map_mem (f := prLine) h1
    refine ⟨baseMessage tagName ++ failureHeader ++ a,
      b ++ strConcat ((scanPRs env extPRs).2.1.map (fun s => "\n- " ++ s))
        ++ manualMoveLine ++ qaSuffix bug.qaContactDetail, ?_⟩
    rw [hmsg, hab]
    simp [String.append_assoc]
  · obtain ⟨a, b, hab⟩ := strConcat_map_mem (f := fun s => "\n- " ++ s) h2
    refine ⟨baseMessage tagName ++ failureHeader
        ++ strConcat ((scanPRs env extPRs).1.map prLine) ++ a,
      b ++ manualMoveLine ++ qaSuffix bug.qaContactDetail, ?_⟩
    rw [hmsg, hab]
    simp [String.append_assoc]

/-- C9 witness: bug 4's only request has a failing label fetch and shows up
both as unapproved and as an error line. -/
theorem c9_witness :
    prC ∈ (scanPRs demoEnv [prC]).1
    ∧ labelFetchErrMsg prC "boom" ∈ (scanPRs demoEnv [prC]).2.1
    ∧ bugOutcomeSuccess demoEnv bug4 [prC] = false
    ∧ (∃ a b, composedMessage demoEnv "4.14.3" bug4 [prC] = a ++ prLine prC ++ b)
    ∧ (∃ a b, composedMessage demoEnv "4.14.3" bug4 [prC]
        = a ++ ("\n- " ++ labelFetchErrMsg prC "boom") ++ b) :=
  c9_label_fetch_failure_double demoEnv "4.14.3" bug4 [prC] prC "boom"
    (by decide) (by decide) (by decide)

/-- C8: link-resolution error classification: access-denied failures are
suppressed, every other link-fetch failure appends exactly one error, every
input ID still gets its fetch issued (the batch is never aborted), and an ID
whose fetch succeeds with zero GitHub-hosted links is omitted from the
mapping. -/
theorem c8_getPRs_error_classification (env : Env) (input : List Int) :
    (getPRs input env).2.1 = input.filterMap (fun id =>
      match env.getExternalBugPRsOnBug id with
      | Except.error e =>
        if e.accessDenied then none
        else some ("Failed to get external bugs for bugzilla bug " ++ toString id ++ ": " ++ e.msg)
      | Except.ok _ => none)
    ∧ (getPRs input env).2.2 = input.map Call.getExternalBugPRs
    ∧ (∀ id extBugs, env.getExternalBugPRsOnBug id = Except.ok extBugs →
        extBugs.filter (fun b => b.typeURL == "https://github.com/") = [] →
        List.lookup id (getPRs input env).1 = none) := by
  refine ⟨getPRsAux_errs env input [], getPRsAux_calls env input [], ?_⟩
  intro id extBugs hf hl
  exact getPRsAux_lookup_none env id extBugs hf hl input [] rfl

/-- C8 witness: bug 8's links are all non-GitHub, so it is absent from the
resolved mapping. -/
theorem c8_witness :
    List.lookup 8 (getPRs [6, 7, 8] demoEnv).1 = none :=
  (c8_getPRs_error_classification demoEnv [6, 7, 8]).2.2 8 [⟨"https://jira/", "a", "b", 1⟩]
    (by decide) (by decide)

/-- C10: a bug ID occurring k times in the input, whose fetch yields the same
n GitHub-hosted links each time, resolves to the k-fold concatenation of its
per-fetch link list: k*n review-request entries, in input order. -/
theorem c10_duplicate_ids_concatenate (env : Env) (input : List Int) (id : Int)
    (extBugs : List ExtBug)
    (hf : env.getExternalBugPRsOnBug id = Except.ok extBugs)
    (hne : linksOf extBugs ≠ [])
    (hmem : id ∈ input) :
    List.lookup id (getPRs input env).1
      = some ((List.replicate (input.count id) (linksOf extBugs)).flatten)
    ∧ ((List.replicate (input.count id) (linksOf extBugs)).flatten).length
      = input.count id * (linksOf extBugs).length := by
  constructor
  · rw [getPRs, getPRsAux_lookup_count env id extBugs hf hne input []]
    have hcount : ¬ input.count id = 0 := by
      rw [List.count_eq_zero]
      exact fun hc => hc hmem
    simp [List.lookup, hcount]
  · rw [List.length_flatten, List.map_replicate]
    simp [List.sum_replicate, smul_eq_mul]

/-- C10 witness: bug ID 1 occurs twice in the input, so its entry is the
twofold concatenation of its single link. -/
theorem c10_witness :
    List.lookup 1 (getPRs [1, 2, 1] demoEnv).1
      = some ((List.replicate (([1, 2, 1] : List Int).count 1)
          (linksOf [⟨"https://github.com/", "o", "r", 5⟩])).flatten)
    ∧ ((List.replicate (([1, 2, 1] : List Int).count 1)
          (linksOf [⟨"https://github.com/", "o", "r", 5⟩])).flatten).length
      = ([1, 2, 1] : List Int).count 1 * (linksOf [⟨"https://github.com/", "o", "r", 5⟩]).length :=
  c10_duplicate_ids_concatenate demoEnv [1, 2, 1] 1 [⟨"https://github.com/", "o", "r", 5⟩]
    (by decide) (by decide) (by decide)

end RC
